import Mathlib

/-!
Verification of the Certifiable Data pipeline core (C sources under src/)
against its natural-language specification.

The C sources are shallowly embedded: machine integers become Nat (unsigned)
or Int (signed) with explicit reduction modulo 2^w where the C type wraps,
each fallible primitive threads an explicit fault-flag record, and stateful
loops become folds or fuel-bounded recursion.  Definitions keep the source
names (ct_prng, ct_permute_index, dvm_round_shift_rne, ...).

SHA-256 itself (src/include/sha256.h declares it; the implementation file is
not part of the corpus) is modelled from the spec: FIPS 180-4 with the
incremental init/update/final interface collapsed to hashing the
concatenation of all updated bytes.  The spec's two canonical test vectors
are proved below (sha256_spec_vector_empty, sha256_spec_vector_abc).
-/

namespace CertData

/-- Bytes are Nat values below 256; 32-bit and 64-bit words are Nat values
below these moduli. -/
def M32 : Nat := 4294967296

/-- Modulus of 64-bit words. -/
def M64 : Nat := 18446744073709551616

namespace Sha256

/-- Right rotation of a 32-bit word (operand below 2^32). -/
def rotr (n x : Nat) : Nat := ((x >>> n) ||| (x <<< (32 - n))) % M32

/-- Choice function of FIPS 180-4 (not-x realised as xor with the 32-bit mask). -/
def ch (x y z : Nat) : Nat := (x &&& y) ^^^ ((x ^^^ 4294967295) &&& z)

/-- Majority function of FIPS 180-4. -/
def maj (x y z : Nat) : Nat := (x &&& y) ^^^ (x &&& z) ^^^ (y &&& z)

/-- Big sigma-0. -/
def bsig0 (x : Nat) : Nat := rotr 2 x ^^^ rotr 13 x ^^^ rotr 22 x

/-- Big sigma-1. -/
def bsig1 (x : Nat) : Nat := rotr 6 x ^^^ rotr 11 x ^^^ rotr 25 x

/-- Small sigma-0. -/
def ssig0 (x : Nat) : Nat := rotr 7 x ^^^ rotr 18 x ^^^ (x >>> 3)

/-- Small sigma-1. -/
def ssig1 (x : Nat) : Nat := rotr 17 x ^^^ rotr 19 x ^^^ (x >>> 10)

/-- The 64 round constants K of FIPS 180-4, written in decimal. -/
def kconst : List Nat :=
  [1116352408, 1899447441, 3049323471, 3921009573,
   961987163, 1508970993, 2453635748, 2870763221,
   3624381080, 310598401, 607225278, 1426881987,
   1925078388, 2162078206, 2614888103, 3248222580,
   3835390401, 4022224774, 264347078, 604807628,
   770255983, 1249150122, 1555081692, 1996064986,
   2554220882, 2821834349, 2952996808, 3210313671,
   3336571891, 3584528711, 113926993, 338241895,
   666307205, 773529912, 1294757372, 1396182291,
   1695183700, 1986661051, 2177026350, 2456956037,
   2730485921, 2820302411, 3259730800, 3345764771,
   3516065817, 3600352804, 4094571909, 275423344,
   430227734, 506948616, 659060556, 883997877,
   958139571, 1322822218, 1537002063, 1747873779,
   1955562222, 2024104815, 2227730452, 2361852424,
   2428436474, 2756734187, 3204031479, 3329325298]

/-- Initial hash value H0 of FIPS 180-4, written in decimal. -/
def hInit : List Nat :=
  [1779033703, 3144134277, 1013904242, 2773480762,
   1359893119, 2600822924, 528734635, 1541459225]

/-- FIPS 180-4 padding: append 0x80, zero bytes to 56 mod 64, then the
64-bit big-endian bit length. -/
def pad (msg : List Nat) : List Nat :=
  let L := msg.length
  let zeros := (64 - ((L + 9) % 64)) % 64
  msg ++ [0x80] ++ List.replicate zeros 0 ++
    (List.range 8).map (fun i => ((8 * L) >>> (8 * (7 - i))) &&& 255)

/-- Group a byte list into big-endian 32-bit words. -/
def toWords : List Nat → List Nat
  | b0 :: b1 :: b2 :: b3 :: rest =>
      ((b0 <<< 24) ||| (b1 <<< 16) ||| (b2 <<< 8) ||| b3) :: toWords rest
  | _ => []

/-- Extend the 16 message words of a block to the 64-entry schedule. -/
def schedule (w16 : List Nat) : List Nat :=
  (List.range 48).foldl
    (fun w _t =>
      let n := w.length
      w ++ [(ssig1 (w.getD (n - 2) 0) + w.getD (n - 7) 0 +
             ssig0 (w.getD (n - 15) 0) + w.getD (n - 16) 0) % M32])
    w16

/-- Working state of the compression function: the eight 32-bit variables. -/
structure St where
  a : Nat
  b : Nat
  c : Nat
  d : Nat
  e : Nat
  f : Nat
  g : Nat
  h : Nat
deriving Repr, DecidableEq

/-- One round of the FIPS 180-4 compression function. -/
def roundStep (st : St) (kw : Nat × Nat) : St :=
  let t1 := (st.h + bsig1 st.e + ch st.e st.f st.g + kw.1 + kw.2) % M32
  let t2 := (bsig0 st.a + maj st.a st.b st.c) % M32
  { a := (t1 + t2) % M32, b := st.a, c := st.b, d := st.c,
    e := (st.d + t1) % M32, f := st.e, g := st.f, h := st.g }

/-- Compress one 64-byte block into the running hash value. -/
def compress (hv : List Nat) (block : List Nat) : List Nat :=
  let ws := schedule (toWords block)
  let st0 : St := { a := hv.getD 0 0, b := hv.getD 1 0, c := hv.getD 2 0, d := hv.getD 3 0,
                    e := hv.getD 4 0, f := hv.getD 5 0, g := hv.getD 6 0, h := hv.getD 7 0 }
  let st := (kconst.zip ws).foldl roundStep st0
  [(hv.getD 0 0 + st.a) % M32, (hv.getD 1 0 + st.b) % M32,
   (hv.getD 2 0 + st.c) % M32, (hv.getD 3 0 + st.d) % M32,
   (hv.getD 4 0 + st.e) % M32, (hv.getD 5 0 + st.f) % M32,
   (hv.getD 6 0 + st.g) % M32, (hv.getD 7 0 + st.h) % M32]

/-- Split a byte list into 64-byte blocks (fuel-bounded structural recursion;
the fuel supplied by chunks always suffices, so the fuel case is unreachable). -/
def chunksF : Nat → List Nat → List (List Nat)
  | 0, _ => []
  | _ + 1, [] => []
  | fuel + 1, l => l.take 64 :: chunksF fuel (l.drop 64)

/-- Split a byte list into 64-byte blocks. -/
def chunks (l : List Nat) : List (List Nat) := chunksF l.length l

/-- Modelled from the spec: SHA-256 of a byte sequence per FIPS 180-4
(src/include/sha256.h declares the implementation; the .c file is not in
the corpus, and the spec mandates the FIPS 180-4 reference algorithm with
the canonical test vectors proved below). -/
def sha256 (msg : List Nat) : List Nat :=
  let hv := (chunks (pad msg)).foldl compress hInit
  hv.flatMap (fun w => [(w >>> 24) &&& 255, (w >>> 16) &&& 255, (w >>> 8) &&& 255, w &&& 255])

end Sha256

/-- Spec test vector: SHA-256 of the empty string. -/
theorem sha256_spec_vector_empty :
    Sha256.sha256 [] =
      [0xe3, 0xb0, 0xc4, 0x42, 0x98, 0xfc, 0x1c, 0x14, 0x9a, 0xfb, 0xf4, 0xc8,
       0x99, 0x6f, 0xb9, 0x24, 0x27, 0xae, 0x41, 0xe4, 0x64, 0x9b, 0x93, 0x4c,
       0xa4, 0x95, 0x99, 0x1b, 0x78, 0x52, 0xb8, 0x55] := by
  rfl

/-- Spec test vector: SHA-256 of the three-byte string abc. -/
theorem sha256_spec_vector_abc :
    Sha256.sha256 [0x61, 0x62, 0x63] =
      [0xba, 0x78, 0x16, 0xbf, 0x8f, 0x01, 0xcf, 0xea, 0x41, 0x41, 0x40, 0xde,
       0x5d, 0xae, 0x22, 0x23, 0xb0, 0x03, 0x61, 0xa3, 0x96, 0x17, 0x7a, 0x9c,
       0xb4, 0x10, 0xff, 0x61, 0xf2, 0x00, 0x15, 0xad] := by
  rfl

/-! Byte-string helpers shared by the hashing call sites: little-endian
encodings as used throughout src (seed_LE(8), epoch_LE(4), value_LE(4)). -/

/-- Little-endian byte encoding of a Nat into k bytes. -/
def natLE (k n : Nat) : List Nat := (List.range k).map fun i => (n >>> (8 * i)) &&& 255

/-! PRNG (src/src/dvm/prng.c). -/

/-- SplitMix64 step from src/src/dvm/prng.c: add the 64-bit golden-ratio
increment, then the three xor-shift-multiply mixing steps. -/
def splitmix64 (x0 : Nat) : Nat :=
  let x1 := (x0 + 0x9E3779B97F4A7C15) % M64
  let x2 := ((x1 ^^^ (x1 >>> 30)) * 0xBF58476D1CE4E5B9) % M64
  let x3 := ((x2 ^^^ (x2 >>> 27)) * 0x94D049BB133111EB) % M64
  x3 ^^^ (x3 >>> 31)

/-- The PRF core ct_prng from src/src/dvm/prng.c: state = seed XOR
(epoch << 32) XOR op_id, then two applications of splitmix64. -/
def ct_prng (seed epoch op_id : Nat) : Nat :=
  let state := seed ^^^ ((epoch <<< 32) % M64) ^^^ op_id
  splitmix64 (splitmix64 state)

/-- Rejection-sampling loop of ct_prng_uniform: at most 4 redraws while the
32-bit value is at or above the threshold (fuel-bounded, as in the source). -/
def prngRejectF : Nat → Nat → Nat → Nat → Nat
  | 0, _, val, _ => val
  | fuel + 1, rand, val, threshold =>
      if threshold ≤ val then
        let r2 := splitmix64 rand
        prngRejectF fuel r2 (r2 &&& 4294967295) threshold
      else val

/-- ct_prng_uniform from src/src/dvm/prng.c: bounded rejection sampling for
n at most 65536, plain modulo for larger n. -/
def ct_prng_uniform (seed epoch op_id n : Nat) : Nat :=
  if n = 0 then 0
  else if n = 1 then 0
  else
    let rand := ct_prng seed epoch op_id
    if n ≤ 65536 then
      let threshold := (4294967295 / n) * n
      let val := rand &&& 4294967295
      (prngRejectF 4 rand val threshold) % n
    else rand % n

/-- The mixing function exactly as displayed in the specification text for
the PRF claim: the three xor-shift-multiply steps with no additive
increment.  Kept separate from splitmix64 so the spec's description can be
compared against the source. -/
def specDisplayedMix (x0 : Nat) : Nat :=
  let x1 := ((x0 ^^^ (x0 >>> 30)) * 0xBF58476D1CE4E5B9) % M64
  let x2 := ((x1 ^^^ (x1 >>> 27)) * 0x94D049BB133111EB) % M64
  x2 ^^^ (x2 >>> 31)

/-! DVM arithmetic primitives (primitives.c, embedded in
src/src/data/normalize.c).  int32/int64 values are Int with explicit
saturation; the fault word is the bitfield of ct_types.h. -/

/-- Fault-flag word of ct_types.h (one Bool per bitfield member). -/
structure CtFaultFlags where
  overflow : Bool
  underflow : Bool
  div_zero : Bool
  domain : Bool
  precision : Bool
  grad_floor : Bool
  chain_invalid : Bool
deriving Repr, DecidableEq

/-- Fault word with every flag clear. -/
def noFaults : CtFaultFlags :=
  { overflow := false, underflow := false, div_zero := false, domain := false,
    precision := false, grad_floor := false, chain_invalid := false }

/-- dvm_clamp32: saturate an int64 value to the int32 range, flagging
overflow or underflow. -/
def dvm_clamp32 (x : Int) (f : CtFaultFlags) : Int × CtFaultFlags :=
  if 2147483647 < x then (2147483647, { f with overflow := true })
  else if x < -2147483648 then (-2147483648, { f with underflow := true })
  else (x, f)

/-- dvm_add32: widen, add, clamp. -/
def dvm_add32 (a b : Int) (f : CtFaultFlags) : Int × CtFaultFlags :=
  dvm_clamp32 (a + b) f

/-- dvm_sub32: widen, subtract, clamp. -/
def dvm_sub32 (a b : Int) (f : CtFaultFlags) : Int × CtFaultFlags :=
  dvm_clamp32 (a - b) f

/-- dvm_mul64: widening multiply, never faults. -/
def dvm_mul64 (a b : Int) : Int := a * b

/-- dvm_round_shift_rne from primitives.c.  On the int64 range the C
bit operations coincide with Euclidean division: x & ((1 << shift) - 1) is
the nonnegative residue x mod 2^shift, the arithmetic right shift is the
floor quotient, and quot & 1 is quot mod 2. -/
def dvm_round_shift_rne (x : Int) (shift : Nat) (f : CtFaultFlags) : Int × CtFaultFlags :=
  if 62 < shift then (0, { f with domain := true })
  else if shift = 0 then dvm_clamp32 x f
  else
    let halfway : Int := 2 ^ (shift - 1)
    let frac : Int := x.emod (2 ^ shift)
    let quot : Int := x.ediv (2 ^ shift)
    let result := if frac < halfway then quot
                  else if halfway < frac then quot + 1
                  else quot + quot.emod 2
    dvm_clamp32 result f

/-- dvm_mul_q16: Q16.16 multiply, RNE-rounded. -/
def dvm_mul_q16 (a b : Int) (f : CtFaultFlags) : Int × CtFaultFlags :=
  dvm_round_shift_rne (dvm_mul64 a b) 16 f

/-! Feistel permutation (shuffle.c, embedded in src/src/data/normalize.c). -/

/-- Bit-counting loop of ceil_log2 (fuel-bounded structural recursion; the
call below supplies fuel m, which always covers the halving iterations). -/
def ceilLog2F : Nat → Nat → Nat
  | 0, _ => 0
  | fuel + 1, m => if m = 0 then 0 else 1 + ceilLog2F fuel (m >>> 1)

/-- ceil_log2 from shuffle.c: 0 for n at most 1, else the bit length of
n - 1. -/
def ceil_log2 (n : Nat) : Nat := if n ≤ 1 then 0 else ceilLog2F (n - 1) (n - 1)

/-- feistel_round from shuffle.c: SHA-256 over seed_LE(8), epoch_LE(4),
R_LE(4), round(1); the first four digest bytes read little-endian. -/
def feistel_round (R seed epoch round_num : Nat) : Nat :=
  let d := Sha256.sha256 (natLE 8 seed ++ natLE 4 epoch ++ natLE 4 R ++ [round_num % 256])
  (d.getD 0 0) ||| ((d.getD 1 0) <<< 8) ||| ((d.getD 2 0) <<< 16) ||| ((d.getD 3 0) <<< 24)

/-- The four Feistel rounds of ct_permute_index: each round sends (L, R) to
(R, L XOR (feistel_round R AND half_mask)). -/
def feistel4 (seed epoch half_mask L R : Nat) : Nat × Nat :=
  (List.range 4).foldl
    (fun p r =>
      let F := feistel_round p.2 seed epoch r &&& half_mask
      (p.2, p.1 ^^^ F))
    (L, R)

/-- Cycle-walking loop of ct_permute_index (fuel = range, exactly the
bounded-loop guard of the source; on exhaustion the source falls back to
index mod N). -/
def ct_permute_walk (seed epoch N half_bits half_mask index : Nat) :
    Nat → Nat → Nat
  | 0, _ => index % N
  | fuel + 1, i =>
      let L := i &&& half_mask
      let R := (i >>> half_bits) &&& half_mask
      let p := feistel4 seed epoch half_mask L R
      let j := (p.2 <<< half_bits) ||| p.1
      if j < N then j
      else ct_permute_walk seed epoch N half_bits half_mask index fuel j

/-- ct_permute_index from shuffle.c. -/
def ct_permute_index (index N seed epoch : Nat) : Nat :=
  if N ≤ 1 then 0
  else if N ≤ index then index % N
  else
    let k := ceil_log2 N
    let range := 1 <<< k
    let half_bits := (k + 1) / 2
    let half_mask := (1 <<< half_bits) - 1
    ct_permute_walk seed epoch N half_bits half_mask index range index

/-! Data model (src/include/ct_types.h).  Sample data buffers are lists of
Int (Q16.16 values in int32 range); hashes are 32-byte lists of Nat. -/

/-- Sample record of ct_types.h.  dims models the fixed uint32 dims[4]
array; data models the element buffer. -/
structure CtSample where
  version : Nat
  dtype : Nat
  ndims : Nat
  dims : List Nat
  total_elements : Nat
  data : List Int
deriving Repr, DecidableEq

/-- An all-zero sample, as produced by memset of a ct_sample_t (the data
pointer becomes null, modelled as the empty buffer). -/
def zeroSample : CtSample :=
  { version := 0, dtype := 0, ndims := 0, dims := [0, 0, 0, 0], total_elements := 0, data := [] }

/-- The all-zero 32-byte digest. -/
def zeroHash : List Nat := List.replicate 32 0

/-- Batch record of ct_types.h. -/
structure CtBatch where
  samples : List CtSample
  sample_hashes : List (List Nat)
  batch_size : Nat
  batch_index : Nat
  batch_hash : List Nat
deriving Repr, DecidableEq

/-- Dataset record of ct_types.h. -/
structure CtDataset where
  samples : List CtSample
  num_samples : Nat
  dataset_hash : List Nat
deriving Repr, DecidableEq

/-- Interpret a uint32 bit pattern as a two's-complement int32 (the C cast
in gaussian_noise). -/
def int32OfBits (n : Nat) : Int :=
  if n < 2147483648 then (n : Int) else (n : Int) - 4294967296

/-- Little-endian uint32 bit pattern of an int32 value. -/
def u32OfInt (v : Int) : Nat := (v.emod 4294967296).toNat

/-! Normalization (src/src/data/normalize.c). -/

/-- Normalization context of ct_types.h. -/
structure CtNormalizeCtx where
  means : List Int
  inv_stds : List Int
  num_features : Nat
deriving Repr, DecidableEq

/-- ct_normalize_sample: copy the metadata verbatim; for each element index
below both total_elements and num_features compute
mul_q16(sub32(x, mean), inv_std), fault flags threaded element by element in
ascending order; remaining elements are copied unchanged.  The source's two
loops (normalize below num_features, then copy the rest) are merged into one
indexed pass with the same visit order and the same fault updates. -/
def ct_normalize_sample (ctx : CtNormalizeCtx) (input : CtSample) (f : CtFaultFlags) :
    CtSample × CtFaultFlags :=
  let r := (List.range input.total_elements).foldl
    (fun (acc : List Int × CtFaultFlags) i =>
      if i < ctx.num_features then
        let c := dvm_sub32 (input.data.getD i 0) (ctx.means.getD i 0) acc.2
        let n := dvm_mul_q16 c.1 (ctx.inv_stds.getD i 0) c.2
        (acc.1 ++ [n.1], n.2)
      else (acc.1 ++ [input.data.getD i 0], acc.2))
    ([], f)
  ({ input with data := r.1 }, r.2)

/-- ct_normalize_batch: normalize the first batch_size samples in ascending
order (out0 is the caller-supplied output batch whose untouched fields
survive), then copy batch_size, batch_index and the 32-byte batch_hash from
the input batch. -/
def ct_normalize_batch (ctx : CtNormalizeCtx) (input : CtBatch) (out0 : CtBatch)
    (f : CtFaultFlags) : CtBatch × CtFaultFlags :=
  let r := (List.range input.batch_size).foldl
    (fun (acc : List CtSample × CtFaultFlags) i =>
      let s := ct_normalize_sample ctx (input.samples.getD i zeroSample) acc.2
      (acc.1 ++ [s.1], s.2))
    ([], f)
  ({ out0 with
      samples := r.1 ++ out0.samples.drop input.batch_size,
      batch_size := input.batch_size,
      batch_index := input.batch_index,
      batch_hash := input.batch_hash }, r.2)

/-! Augmentation (src/src/data/augment.c).  Besides the output sample and
the fault word, the embedding returns the trace of PRF invocations, each
recorded as the (seed, epoch, op_id) triple passed to ct_prng; the data and
fault components translate the source directly and the trace is pure
instrumentation of the calls the source makes. -/

/-- Augmentation flag bitfield of ct_types.h. -/
structure CtAugmentFlags where
  h_flip : Bool
  v_flip : Bool
  random_crop : Bool
  gaussian_noise : Bool
deriving Repr, DecidableEq

/-- Augmentation context of ct_types.h. -/
structure CtAugmentCtx where
  seed : Nat
  epoch : Nat
  flags : CtAugmentFlags
  crop_width : Nat
  crop_height : Nat
  noise_std : Int
deriving Repr, DecidableEq

/-- horizontal_flip from augment.c: swap the columns of each row in place
(row-major, width times height region). -/
def horizontal_flip (data : List Int) (width height : Nat) : List Int :=
  (List.range height).foldl
    (fun d row =>
      (List.range (width / 2)).foldl
        (fun d col =>
          let li := row * width + col
          let ri := row * width + (width - 1 - col)
          let tmp := d.getD li 0
          (d.set li (d.getD ri 0)).set ri tmp)
        d)
    data

/-- random_crop from augment.c: draw the X offset (op_id low bits 0x0001)
then the Y offset (0x0002) with ct_prng_uniform, copy the crop window to the
front of the buffer (the source writes through the same buffer it reads, and
every destination index never exceeds its source index, so the in-place copy
equals the functional copy), and update dims[0], dims[1], total_elements. -/
def random_crop (input : CtSample) (src_width src_height crop_width crop_height : Nat)
    (seed epoch sample_idx : Nat) : CtSample × List (Nat × Nat × Nat) :=
  let max_x := (src_width + M32 - crop_width) % M32
  let max_y := (src_height + M32 - crop_height) % M32
  let op_x := ((sample_idx <<< 16) % M32) ||| 1
  let crop_x := ct_prng_uniform seed epoch op_x ((max_x + 1) % M32)
  let op_y := ((sample_idx <<< 16) % M32) ||| 2
  let crop_y := ct_prng_uniform seed epoch op_y ((max_y + 1) % M32)
  let area := crop_width * crop_height
  let newData := (List.range area).map (fun d =>
      input.data.getD ((crop_y + d / crop_width) * src_width + (crop_x + d % crop_width)) 0)
  ({ input with
      data := newData ++ input.data.drop area,
      dims := (input.dims.set 0 crop_height).set 1 crop_width,
      total_elements := area % M32 },
   [(seed, epoch, op_x), (seed, epoch, op_y)])

/-- gaussian_noise from augment.c: elements visited in pairs; both PRF draws
of a pair happen even when the second element does not exist; fixed-point
noise computed through the dvm primitives with faults threaded in source
order. -/
def gaussian_noise (data0 : List Int) (total : Nat) (noise_std : Int)
    (seed epoch sample_idx : Nat) (f : CtFaultFlags) :
    List Int × CtFaultFlags × List (Nat × Nat × Nat) :=
  (List.range ((total + 1) / 2)).foldl
    (fun (acc : List Int × CtFaultFlags × List (Nat × Nat × Nat)) pairIdx =>
      let i := 2 * pairIdx
      let op1 := ((sample_idx <<< 16) % M32) ||| ((4096 + i) % M32)
      let op2 := ((sample_idx <<< 16) % M32) ||| ((4096 + i + 1) % M32)
      let u1 := ct_prng seed epoch op1
      let u2 := ct_prng seed epoch op2
      let u1f := int32OfBits ((u1 >>> 32) &&& 0xFFFF0000)
      let u2f := int32OfBits ((u2 >>> 32) &&& 0xFFFF0000)
      let d := acc.1
      let s1 := dvm_sub32 u1f 32768 acc.2.1
      let m1 := dvm_mul_q16 noise_std s1.1 s1.2
      let n1 := dvm_add32 m1.1 m1.1 m1.2
      let s2 := dvm_sub32 u2f 32768 n1.2
      let m2 := dvm_mul_q16 noise_std s2.1 s2.2
      let n2 := dvm_add32 m2.1 m2.1 m2.2
      let e1 := dvm_add32 (d.getD i 0) n1.1 n2.2
      let d1 := d.set i e1.1
      let r :=
        if i + 1 < total then
          let e2 := dvm_add32 (d1.getD (i + 1) 0) n2.1 e1.2
          (d1.set (i + 1) e2.1, e2.2)
        else (d1, e1.2)
      (r.1, r.2, acc.2.2 ++ [(seed, epoch, op1), (seed, epoch, op2)]))
    (data0, f, [])

/-- ct_augment_sample from augment.c: copy the input, then conditionally
apply horizontal flip (one PRF draw, low bit decides), then random crop
(two PRF draws inside random_crop), then gaussian noise.  Disabled
operations are skipped entirely, PRF draws included.  The third component
is the PRF invocation trace. -/
def ct_augment_sample (ctx : CtAugmentCtx) (input : CtSample) (sample_idx : Nat)
    (f : CtFaultFlags) : CtSample × CtFaultFlags × List (Nat × Nat × Nat) :=
  let height := input.dims.getD 0 0
  let width := if 1 < input.ndims then input.dims.getD 1 0 else 1
  let st1 : CtSample × List (Nat × Nat × Nat) :=
    if ctx.flags.h_flip then
      let op_id := ((sample_idx <<< 16) % M32) ||| 256
      let rand := ct_prng ctx.seed ctx.epoch op_id
      (if rand &&& 1 = 1 then { input with data := horizontal_flip input.data width height }
       else input,
       [(ctx.seed, ctx.epoch, op_id)])
    else (input, [])
  let st2 : CtSample × List (Nat × Nat × Nat) :=
    if ctx.flags.random_crop ∧ 0 < ctx.crop_height ∧ 0 < ctx.crop_width then
      random_crop st1.1 width height ctx.crop_width ctx.crop_height ctx.seed ctx.epoch sample_idx
    else (st1.1, [])
  if ctx.flags.gaussian_noise ∧ 0 < ctx.noise_std then
    let r := gaussian_noise st2.1.data st2.1.total_elements ctx.noise_std
               ctx.seed ctx.epoch sample_idx f
    ({ st2.1 with data := r.1 }, r.2.1, st1.2 ++ st2.2 ++ r.2.2)
  else (st2.1, f, st1.2 ++ st2.2)

/-- ct_augment_batch from augment.c: augment the first batch_size samples
with global index batch_index times batch_size plus i, then copy batch_size,
batch_index and the batch_hash from the input batch. -/
def ct_augment_batch (ctx : CtAugmentCtx) (input : CtBatch) (out0 : CtBatch)
    (f : CtFaultFlags) : CtBatch × CtFaultFlags :=
  let r := (List.range input.batch_size).foldl
    (fun (acc : List CtSample × CtFaultFlags) i =>
      let global_idx := (input.batch_index * input.batch_size + i) % M32
      let s := ct_augment_sample ctx (input.samples.getD i zeroSample) global_idx acc.2
      (acc.1 ++ [s.1], s.2.1))
    ([], f)
  ({ out0 with
      samples := r.1 ++ out0.samples.drop input.batch_size,
      batch_size := input.batch_size,
      batch_index := input.batch_index,
      batch_hash := input.batch_hash }, r.2)

/-! Merkle tree and batch commitment (src/src/audit/merkle.c,
src/src/data/batch.c). -/

/-- Domain-separation byte for leaf hashes (CT_DOMAIN_LEAF). -/
def ctDomainLeaf : Nat := 0

/-- Domain-separation byte for internal nodes (CT_DOMAIN_INTERNAL). -/
def ctDomainInternal : Nat := 1

/-- ct_hash_sample from merkle.c: SHA-256 of the leaf domain byte, the
little-endian header (version, dtype, ndims, the four dims slots with
entries at index ndims and beyond replaced by zero), then each of the first
total_elements data values as little-endian int32. -/
def ct_hash_sample (s : CtSample) : List Nat :=
  Sha256.sha256
    ([ctDomainLeaf] ++ natLE 4 s.version ++ natLE 4 s.dtype ++ natLE 4 s.ndims
      ++ (List.range 4).flatMap (fun i => natLE 4 (if i < s.ndims then s.dims.getD i 0 else 0))
      ++ (List.range s.total_elements).flatMap (fun i => natLE 4 (u32OfInt (s.data.getD i 0))))

/-- ct_hash_internal from merkle.c: SHA-256 of the internal domain byte and
the two 32-byte children. -/
def ct_hash_internal (left right : List Nat) : List Nat :=
  Sha256.sha256 ([ctDomainInternal] ++ left ++ right)

/-- One level of the bottom-up loop in ct_merkle_root: adjacent nodes are
paired in index order; the last node of an odd-length level is promoted
(copied, not rehashed), exactly the else branch of the source loop. -/
def merkleLevel : List (List Nat) → List (List Nat)
  | a :: b :: rest => ct_hash_internal a b :: merkleLevel rest
  | l => l

/-- The while-loop of ct_merkle_root (fuel-bounded; the fuel supplied below
always covers the level count, which at least halves each pass). -/
def merkleLoopF : Nat → List (List Nat) → List Nat
  | 0, l => l.headD zeroHash
  | fuel + 1, l => if l.length ≤ 1 then l.headD zeroHash else merkleLoopF fuel (merkleLevel l)

/-- ct_merkle_root from merkle.c.  The source copies only the first 1024
leaves into its fixed stack scratch (ct_hash_t tree[2048]) but runs the
pairing loop over the full count, so every level-0 position from 1024 on
holds whatever the uninitialized stack contained; the uninit parameter
models those bytes. -/
def ct_merkle_root (uninit : Nat → List Nat) (leaves : List (List Nat)) : List Nat :=
  let count := leaves.length
  if count = 0 then zeroHash
  else if count = 1 then leaves.headD zeroHash
  else
    let level0 := (List.range count).map
      (fun i => if i < 1024 then leaves.getD i zeroHash else uninit i)
    merkleLoopF count level0

/-- ct_hash_batch from merkle.c: the Merkle root over the first batch_size
sample-hash slots (the source reads exactly batch_size 32-byte slots from
the sample_hashes array). -/
def ct_hash_batch (uninit : Nat → List Nat) (batch : CtBatch) : List Nat :=
  ct_merkle_root uninit
    ((List.range batch.batch_size).map (fun i => batch.sample_hashes.getD i zeroHash))

/-- ct_batch_fill from batch.c: select min(batch_size, N - start) samples by
the epoch permutation, hash each, zero-fill the remaining sample and hash
slots, then store the Merkle root of the full batch_size-slot hash array as
batch_hash (uint32 arithmetic wraps modulo 2^32 as in the source). -/
def ct_batch_fill (uninit : Nat → List Nat) (batch0 : CtBatch) (dataset : CtDataset)
    (batch_index epoch seed : Nat) : CtBatch :=
  let bs := batch0.batch_size
  let start := (batch_index * bs) % M32
  let sib := if dataset.num_samples < (start + bs) % M32
             then (dataset.num_samples + M32 - start) % M32 else bs
  let filled := (List.range sib).map (fun i =>
      let shuffled := ct_permute_index ((start + i) % M32) dataset.num_samples seed epoch
      dataset.samples.getD shuffled zeroSample)
  let b1 : CtBatch :=
    { batch0 with
        batch_index := batch_index,
        samples := filled ++ List.replicate (bs - sib) zeroSample,
        sample_hashes := filled.map ct_hash_sample ++ List.replicate (bs - sib) zeroHash }
  { b1 with batch_hash := ct_hash_batch uninit b1 }

/-- ct_batch_verify from batch.c: recompute the batch hash and compare the
32 bytes; the source returns only the comparison result and touches no
fault flags (it has no fault parameter). -/
def ct_batch_verify (uninit : Nat → List Nat) (batch : CtBatch) : Bool :=
  ct_hash_batch uninit batch == batch.batch_hash

/-! Concrete fixtures used by the claim theorems below. -/

/-- Uninitialized-scratch model that happens to hold zero bytes. -/
def zeroUninit : Nat → List Nat := fun _ => zeroHash

/-- Augmentation context with every operation disabled. -/
def augCtxNone : CtAugmentCtx :=
  { seed := 0, epoch := 0,
    flags := { h_flip := false, v_flip := false, random_crop := false, gaussian_noise := false },
    crop_width := 0, crop_height := 0, noise_std := 0 }

/-- Augmentation context with only horizontal flip enabled. -/
def augCtxFlipOnly : CtAugmentCtx :=
  { augCtxNone with flags := { augCtxNone.flags with h_flip := true } }

/-- A 2x2 sample. -/
def sample2x2 : CtSample :=
  { version := 1, dtype := 0, ndims := 2, dims := [2, 2, 0, 0], total_elements := 4,
    data := [0, 65536, 131072, 196608] }

/-- Augmentation context with horizontal flip and a 1x2 random crop enabled,
seed 4 (whose flip-decision draw has low bit 1 at epoch 0, sample 0). -/
def augCtxFlipCrop : CtAugmentCtx :=
  { seed := 4, epoch := 0,
    flags := { h_flip := true, v_flip := false, random_crop := true, gaussian_noise := false },
    crop_width := 2, crop_height := 1, noise_std := 0 }

/-- A 1x3 sample with three distinct elements. -/
def sample1x3 : CtSample :=
  { version := 1, dtype := 0, ndims := 2, dims := [1, 3, 0, 0], total_elements := 3,
    data := [65536, 131072, 196608] }

/-- A single-element sample. -/
def sampleUnit : CtSample :=
  { version := 1, dtype := 0, ndims := 1, dims := [1, 0, 0, 0], total_elements := 1,
    data := [65536] }

/-- A dataset holding just sampleUnit. -/
def dsUnit : CtDataset :=
  { samples := [sampleUnit], num_samples := 1, dataset_hash := zeroHash }

/-- An empty batch with two declared slots. -/
def batchTwoSlots : CtBatch :=
  { samples := [], sample_hashes := [], batch_size := 2, batch_index := 0, batch_hash := zeroHash }

/-- An empty batch with one declared slot. -/
def batchOneSlot : CtBatch :=
  { samples := [], sample_hashes := [], batch_size := 1, batch_index := 0, batch_hash := zeroHash }

/-- The one-slot batch filled from dsUnit (epoch 0, seed 0). -/
def goodBatch : CtBatch := ct_batch_fill zeroUninit batchOneSlot dsUnit 0 0 0

/-- goodBatch with the first byte of its stored hash flipped. -/
def tamperedBatch : CtBatch :=
  { goodBatch with
      batch_hash := goodBatch.batch_hash.set 0 ((goodBatch.batch_hash.getD 0 0) ^^^ 255) }

end CertData

set_option maxRecDepth 1000000

namespace CertData

/-- C1: the spec asserts that for every N at least 1, seed, and epoch,
ct_permute_index restricted to inputs below N is a bijection onto the range
below N.  The code's cycle-walking loop is bounded by range = 2^k iterations
and on exhaustion falls back to index mod N; at N = 2, seed = 4, epoch = 1
this fallback fires and inputs 0 and 1 both map to 1, so the restriction is
not a bijection (the source's own comment calls the fallback unreachable for
valid inputs, and REQ-SHUF-001 mandates bijectivity for every seed). -/
theorem ct_permute_index_collision_N2_seed4_epoch1 :
    ct_permute_index 0 2 4 1 = 1 ∧ ct_permute_index 1 2 4 1 = 1 := by
  constructor <;> rfl

/-- C2: the spec asserts that a disabled augmentation consumes the same PRF
draws as its enabled counterpart, so the draw sequence depends only on
(epoch, sample_idx).  In the code every draw sits inside the enable test:
with all flags off, augmenting a sample performs no PRF call, while with
h_flip on it performs one call with op_id 0x0100, so the sequence does
depend on the flags (contradicting REQ-AUG-022/032/042/052/062 and
REQ-AUG-072 of SRS-003). -/
theorem ct_augment_sample_trace_depends_on_flags :
    (ct_augment_sample augCtxNone sample2x2 0 noFaults).2.2 = [] ∧
    (ct_augment_sample augCtxFlipOnly sample2x2 0 noFaults).2.2 = [(0, 0, 256)] ∧
    ([] : List (Nat × Nat × Nat)) ≠ [(0, 0, 256)] := by
  refine ⟨rfl, rfl, by decide⟩

/-- C3: the spec asserts the fixed pipeline order random_crop, then
horizontal_flip, then vertical_flip, then brightness, then additive_noise.
The code applies horizontal flip BEFORE random crop (and implements no
vertical flip or brightness at all, despite the v_flip flag and
REQ-AUG-070's order).  At seed 4, epoch 0, sample 0 the flip decision bit is
1 and the 1x3 sample with a 1x2 crop comes out as flip-then-crop, which
differs from the crop-then-flip result the spec order would give. -/
theorem ct_augment_sample_flips_before_cropping :
    (ct_augment_sample augCtxFlipCrop sample1x3 0 noFaults).1.data = [131072, 65536, 65536] ∧
    (ct_augment_sample augCtxFlipCrop sample1x3 0 noFaults).1.data ≠
      horizontal_flip (random_crop sample1x3 3 1 2 1 4 0 0).1.data 2 1 := by
  refine ⟨rfl, by decide⟩

/-- C4: the spec asserts that for a partial batch only the first effective
sample hashes feed the Merkle root.  The code's ct_hash_batch passes the
full declared batch_size to ct_merkle_root, so the zero-filled padding
hashes are hashed in: filling a 2-slot batch from a 1-sample dataset stores
H_node(H_sample, 0^32), not the root over the single effective hash (which
would be H_sample itself).  This contradicts REQ-BATCH-002/012/022 of
SRS-005. -/
theorem ct_batch_fill_hashes_padding_slots :
    (ct_batch_fill zeroUninit batchTwoSlots dsUnit 0 0 0).batch_hash =
      ct_hash_internal (ct_hash_sample sampleUnit) zeroHash ∧
    (ct_batch_fill zeroUninit batchTwoSlots dsUnit 0 0 0).batch_hash ≠
      ct_merkle_root zeroUninit [ct_hash_sample sampleUnit] := by
  refine ⟨rfl, by decide⟩

/-- C7 counterexample: the spec asserts that ct_prng applies the displayed
three-step mixing function exactly twice to the xor-combined state with no
other transformation.  The code applies full SplitMix64, which first adds
0x9E3779B97F4A7C15 to the state on each of the two applications; at
seed = epoch = op_id = 0 the displayed double mix returns 0 while ct_prng
does not. -/
theorem ct_prng_ne_displayed_double_mix :
    ct_prng 0 0 0 ≠ specDisplayedMix (specDisplayedMix (0 ^^^ ((0 <<< 32) % M64) ^^^ 0)) := by
  decide

/-- C7 amended: ct_prng equals the displayed mixing function applied twice,
except that each application first adds the SplitMix64 increment
0x9E3779B97F4A7C15 to the state word seed XOR ((epoch as u64) << 32) XOR
op_id. -/
theorem ct_prng_eq_incremented_double_mix (seed epoch op_id : Nat) :
    ct_prng seed epoch op_id =
      specDisplayedMix
        ((specDisplayedMix
            (((seed ^^^ ((epoch <<< 32) % M64) ^^^ op_id) + 0x9E3779B97F4A7C15) % M64)
          + 0x9E3779B97F4A7C15) % M64) := rfl

/-- C8: the spec asserts verify returns true iff the recomputed root matches
the stored batch_hash byte-for-byte AND sets the hash_mismatch fault on
mismatch.  The iff holds: ct_batch_verify is exactly the 32-byte comparison.
But the source's ct_batch_verify takes no fault parameter and ct_types.h's
fault word has no hash_mismatch member at all (closest is chain_invalid,
which nothing sets), so nothing is flagged on the tampered batch below,
contradicting REQ-MERK-072. -/
theorem ct_batch_verify_matches_root_only :
    (∀ (uninit : Nat → List Nat) (b : CtBatch),
        ct_batch_verify uninit b = true ↔ ct_hash_batch uninit b = b.batch_hash) ∧
    ct_batch_verify zeroUninit goodBatch = true ∧
    ct_batch_verify zeroUninit tamperedBatch = false := by
  refine ⟨fun uninit b => ?_, rfl, rfl⟩
  simp [ct_batch_verify]

/-- Helper: one pairing pass maps a level of length m to one of length
(m + 1) / 2 (the promoted odd tail counts as one node). -/
theorem merkleLevel_length : ∀ l : List (List Nat), (merkleLevel l).length = (l.length + 1) / 2
  | [] => by simp [merkleLevel]
  | [_] => by simp [merkleLevel]
  | _ :: _ :: rest => by
      simp only [merkleLevel, List.length_cons, merkleLevel_length rest]
      omega

/-- Helper: the loop fuel is irrelevant as soon as it covers the level
count (each pass at least halves a level of length at least 2). -/
theorem merkleLoopF_fuel : ∀ (f1 f2 : Nat) (l : List (List Nat)),
    l.length ≤ f1 → l.length ≤ f2 → merkleLoopF f1 l = merkleLoopF f2 l
  | 0, f2, l, h1, _ => by
      have hl : l = [] := List.length_eq_zero.mp (Nat.le_zero.mp h1)
      cases f2 <;> simp [merkleLoopF, hl]
  | f1 + 1, 0, l, _, h2 => by
      have hl : l = [] := List.length_eq_zero.mp (Nat.le_zero.mp h2)
      simp [merkleLoopF, hl]
  | f1 + 1, f2 + 1, l, h1, h2 => by
      by_cases hl : l.length ≤ 1
      · simp [merkleLoopF, hl]
      · have hlevel := merkleLevel_length l
        have hrec := merkleLoopF_fuel f1 f2 (merkleLevel l) (by omega) (by omega)
        simp [merkleLoopF, hl, hrec]

/-- Helper: when the leaf count is within the 1024-slot scratch capacity,
the initial tree level of ct_merkle_root is the leaf list itself. -/
theorem merkle_level0_eq (uninit : Nat → List Nat) (l : List (List Nat))
    (h : l.length ≤ 1024) :
    (List.range l.length).map (fun i => if i < 1024 then l.getD i zeroHash else uninit i) = l := by
  apply List.ext_getElem (by simp)
  intro i h1 h2
  simp only [List.getElem_map, List.getElem_range]
  rw [if_pos (lt_of_lt_of_le h2 h)]
  exact List.getD_eq_getElem l zeroHash h2

/-- Helper: within capacity, one pairing pass commutes with the root: the
root of a level of at least two nodes equals the root of the next level. -/
theorem merkle_root_level_step (uninit : Nat → List Nat) (l : List (List Nat))
    (h1 : 2 ≤ l.length) (h2 : l.length ≤ 1024) :
    ct_merkle_root uninit l = ct_merkle_root uninit (merkleLevel l) := by
  obtain ⟨m, hm⟩ : ∃ m, l.length = m + 2 := ⟨l.length - 2, by omega⟩
  have hlevel := merkleLevel_length l
  have hL : ct_merkle_root uninit l = merkleLoopF (m + 1) (merkleLevel l) := by
    simp only [ct_merkle_root]
    rw [if_neg (by omega), if_neg (by omega), merkle_level0_eq uninit l h2, hm]
    simp only [merkleLoopF]
    rw [if_neg (by omega)]
  rw [hL]
  by_cases hone : (merkleLevel l).length ≤ 1
  · have : ct_merkle_root uninit (merkleLevel l) = (merkleLevel l).headD zeroHash := by
      simp only [ct_merkle_root]
      rcases Nat.lt_or_ge (merkleLevel l).length 1 with hlt | hge
      · rw [if_pos (by omega)]
        have : merkleLevel l = [] := List.length_eq_zero.mp (by omega)
        simp [this]
      · rw [if_neg (by omega), if_pos (by omega)]
    rw [this]
    simp [merkleLoopF, hone]
  · have hcap : (merkleLevel l).length ≤ 1024 := by omega
    have : ct_merkle_root uninit (merkleLevel l) =
        merkleLoopF (merkleLevel l).length (merkleLevel l) := by
      simp only [ct_merkle_root]
      rw [if_neg (by omega), if_neg (by omega), merkle_level0_eq uninit _ hcap]
    rw [this]
    exact merkleLoopF_fuel (m + 1) (merkleLevel l).length (merkleLevel l) (by omega) (by omega)

/-- Helper: the root of a single-node level is that node. -/
theorem merkle_root_single (uninit : Nat → List Nat) (x : List Nat) :
    ct_merkle_root uninit [x] = x := rfl

/-- C5: ct_merkle_root returns the all-zero digest on zero leaves, the sole
leaf unchanged on one leaf, and otherwise reduces level by level through
merkleLevel, which pairs adjacent nodes and promotes (copies, does not
rehash) the last node of an odd level; in particular the root of three
leaves a, b, c is H_node(H_node(a, b), c).  Stated within the scratch
capacity of 1024 leaves (exceeding it is the separate capacity defect). -/
theorem ct_merkle_root_promotes_odd_tail (uninit : Nat → List Nat) (l : List (List Nat))
    (a b c : List Nat) (h1 : 2 ≤ l.length) (h2 : l.length ≤ 1024) :
    ct_merkle_root uninit [] = zeroHash ∧
    ct_merkle_root uninit [a] = a ∧
    ct_merkle_root uninit l = ct_merkle_root uninit (merkleLevel l) ∧
    ct_merkle_root uninit [a, b, c] = ct_hash_internal (ct_hash_internal a b) c := by
  refine ⟨rfl, merkle_root_single uninit a, merkle_root_level_step uninit l h1 h2, ?_⟩
  have s1 : ct_merkle_root uninit [a, b, c] =
      ct_merkle_root uninit [ct_hash_internal a b, c] := by
    have h := merkle_root_level_step uninit [a, b, c] (by simp) (by simp)
    simpa [merkleLevel] using h
  have s2 : ct_merkle_root uninit [ct_hash_internal a b, c] =
      ct_merkle_root uninit [ct_hash_internal (ct_hash_internal a b) c] := by
    have h := merkle_root_level_step uninit [ct_hash_internal a b, c] (by simp) (by simp)
    simpa [merkleLevel] using h
  rw [s1, s2]
  exact merkle_root_single uninit _

/-- C5 witness: the theorem applied at a concrete two-leaf level. -/
theorem ct_merkle_root_promotes_odd_tail_witness :
    2 ≤ ([zeroHash, zeroHash] : List (List Nat)).length ∧
    ([zeroHash, zeroHash] : List (List Nat)).length ≤ 1024 ∧
    (ct_merkle_root zeroUninit [] = zeroHash ∧
     ct_merkle_root zeroUninit [zeroHash] = zeroHash ∧
     ct_merkle_root zeroUninit [zeroHash, zeroHash] =
       ct_merkle_root zeroUninit (merkleLevel [zeroHash, zeroHash]) ∧
     ct_merkle_root zeroUninit [zeroHash, zeroHash, zeroHash] =
       ct_hash_internal (ct_hash_internal zeroHash zeroHash) zeroHash) :=
  ⟨by simp, by simp,
   ct_merkle_root_promotes_odd_tail zeroUninit [zeroHash, zeroHash]
     zeroHash zeroHash zeroHash (by simp) (by simp)⟩

/-- C9: the spec asserts that a leaf count beyond the compile-time scratch
capacity (1024 in the source pass) sets the domain fault and refuses to
compute a root.  The code does neither: ct_merkle_root has no fault
parameter, and with 1025 leaves the root is computed from the scratch
buffer, whose slot 1024 was never written from the leaves — so the root
does not depend on the 1025th leaf at all (silent truncation to
uninitialized memory). -/
theorem ct_merkle_root_ignores_leaf_beyond_capacity (uninit : Nat → List Nat)
    (l : List (List Nat)) (x y : List Nat) (h : l.length = 1025) :
    ct_merkle_root uninit (l.set 1024 x) = ct_merkle_root uninit (l.set 1024 y) := by
  have hx : (l.set 1024 x).length = 1025 := by rw [List.length_set, h]
  have hy : (l.set 1024 y).length = 1025 := by rw [List.length_set, h]
  have hmap :
      (List.range 1025).map (fun i => if i < 1024 then (l.set 1024 x).getD i zeroHash else uninit i)
        = (List.range 1025).map
            (fun i => if i < 1024 then (l.set 1024 y).getD i zeroHash else uninit i) := by
    apply List.map_congr_left
    intro i _
    by_cases hlt : i < 1024
    · have hne : 1024 ≠ i := by omega
      simp only [if_pos hlt, List.getD_eq_getElem?_getD,
        List.getElem?_set_ne hne, l.getElem?_set_ne hne]
    · simp [hlt]
  simp only [ct_merkle_root, hx, hy]
  rw [if_neg (by omega), if_neg (by omega), if_neg (by omega), if_neg (by omega), hmap]

/-- C9 witness: the theorem applied at a concrete 1025-leaf list. -/
theorem ct_merkle_root_ignores_leaf_beyond_capacity_witness :
    (List.replicate 1025 zeroHash : List (List Nat)).length = 1025 ∧
    ct_merkle_root zeroUninit ((List.replicate 1025 zeroHash).set 1024 zeroHash) =
      ct_merkle_root zeroUninit ((List.replicate 1025 zeroHash).set 1024 (List.replicate 32 255)) :=
  ⟨by simp,
   ct_merkle_root_ignores_leaf_beyond_capacity zeroUninit (List.replicate 1025 zeroHash)
     zeroHash (List.replicate 32 255) (by simp)⟩

/-- C6: dvm_round_shift_rne computes, for shift in [0, 62], the
round-half-to-even rounding of the exact quotient x / 2^shift and clamps it
to int32: any integer n within half a step of x / 2^shift (with the tie
resolved to the even neighbour) is the returned pre-clamp value.  For
shift > 62 it sets the domain fault and returns 0, and shift = 0 reduces to
clamp32(x). -/
theorem dvm_round_shift_rne_implements_rne (x n y : Int) (shift s2 : Nat)
    (f g : CtFaultFlags)
    (hs : shift ≤ 62) (hs2 : 62 < s2)
    (hnear : 2 * |x - n * 2 ^ shift| ≤ 2 ^ shift)
    (htie : 2 * |x - n * 2 ^ shift| = 2 ^ shift → n % 2 = 0) :
    dvm_round_shift_rne x shift f = dvm_clamp32 n f ∧
    dvm_round_shift_rne y s2 g = (0, { g with domain := true }) ∧
    dvm_round_shift_rne x 0 f = dvm_clamp32 x f := by
  refine ⟨?_, ?_, ?_⟩
  · cases shift with
    | zero =>
        have hn : n = x := by
          simp only [pow_zero, mul_one] at hnear
          have := abs_nonneg (x - n)
          have hz : |x - n| = 0 := by omega
          have := abs_eq_zero.mp hz
          omega
        simp [dvm_round_shift_rne, hn]
    | succ s =>
        have hP : (0 : Int) < 2 ^ (s + 1) := by positivity
        set P : Int := 2 ^ (s + 1) with hPdef
        set H : Int := 2 ^ s with hHdef
        have hPH : P = 2 * H := by rw [hPdef, hHdef, pow_succ]; ring
        set frac : Int := x.emod P with hfracdef
        set quot : Int := x.ediv P with hquotdef
        have hfr0 : 0 ≤ frac := Int.emod_nonneg x (by omega)
        have hfrP : frac < P := Int.emod_lt_of_pos x hP
        have hx : P * quot + frac = x := Int.ediv_add_emod x P
        set k : Int := quot - n with hkdef
        have heq : x - n * P = P * k + frac := by
          rw [hkdef, mul_sub]
          have : P * quot = x - frac := by omega
          rw [this]; ring
        have habs : |2 * (x - n * P)| ≤ P := by
          rw [abs_mul]
          simpa using hnear
        have hb := abs_le.mp habs
        have hk0 : k = 0 ∨ k = -1 := by
          rcases Int.lt_or_le k 0 with hneg | hpos
          · rcases Int.lt_or_le k (-1) with hneg2 | _
            · exfalso
              have hk2 : k ≤ -2 := by omega
              have : P * k ≤ P * (-2) := by
                apply mul_le_mul_of_nonneg_left hk2 hP.le
              have := hb.1
              omega
            · omega
          · rcases Int.lt_or_le 0 k with hpos2 | _
            · exfalso
              have hk1 : (1 : Int) ≤ k := by omega
              have : P * 1 ≤ P * k := by
                apply mul_le_mul_of_nonneg_left hk1 hP.le
              have := hb.2
              omega
            · omega
        have hresult :
            (if frac < H then quot else if H < frac then quot + 1 else quot + quot.emod 2) = n := by
          rcases hk0 with hk | hk
          · have hnq : n = quot := by omega
            have hdfrac : x - n * P = frac := by rw [heq, hk]; ring
            rcases lt_trichotomy frac H with hlt | heqf | hgt
            · rw [if_pos hlt, hnq]
            · have htiehyp : 2 * |x - n * P| = P := by
                rw [hdfrac, abs_of_nonneg hfr0]
                omega
              have hpar := htie htiehyp
              have hpar2 : quot.emod 2 = 0 := by rw [hnq] at hpar; exact hpar
              rw [if_neg (by omega), if_neg (by omega), hpar2, hnq]
              ring
            · exfalso
              have h2 := hb.2
              rw [hdfrac] at h2
              omega
          · have hnq : n = quot + 1 := by omega
            have hdfrac : x - n * P = frac - P := by rw [heq, hk]; ring
            rcases lt_trichotomy frac H with hlt | heqf | hgt
            · exfalso
              have h1 := hb.1
              rw [hdfrac] at h1
              omega
            · have htiehyp : 2 * |x - n * P| = P := by
                rw [hdfrac, abs_of_nonpos (by omega : frac - P ≤ 0)]
                omega
              have hpar := htie htiehyp
              have hpar2 : (quot + 1).emod 2 = 0 := by rw [hnq] at hpar; exact hpar
              have hodd : quot % 2 = 1 := by
                have heven : Even (quot + 1) := Int.even_iff.mpr hpar2
                exact Int.odd_iff.mp (Int.not_even_iff_odd.mp (Int.even_add_one.mp heven))
              rw [if_neg (by omega), if_neg (by omega),
                show quot.emod 2 = 1 from hodd, hnq]
            · rw [if_neg (by omega), if_pos hgt, hnq]
        simp only [dvm_round_shift_rne]
        rw [if_neg (by omega), if_neg (by omega)]
        have hss : s + 1 - 1 = s := by omega
        rw [hss]
        simp only [← hPdef, ← hHdef, ← hfracdef, ← hquotdef]
        rw [hresult]
  · simp [dvm_round_shift_rne, hs2]
  · simp [dvm_round_shift_rne]

/-- C6 witness: 0x18000 shifted right 16 with RNE is 2 (the spec scenario of
1.5 rounding to the even 2), shift 63 faults, shift 0 clamps. -/
theorem dvm_round_shift_rne_implements_rne_witness :
    ((16 : Nat) ≤ 62) ∧ (62 < 63) ∧
    (2 * |(98304 : Int) - 2 * 2 ^ 16| ≤ 2 ^ 16) ∧
    (dvm_round_shift_rne 98304 16 noFaults = dvm_clamp32 2 noFaults ∧
     dvm_round_shift_rne 5 63 noFaults = (0, { noFaults with domain := true }) ∧
     dvm_round_shift_rne 98304 0 noFaults = dvm_clamp32 98304 noFaults) :=
  ⟨by decide, by decide, by decide,
   dvm_round_shift_rne_implements_rne 98304 2 5 16 63 noFaults noFaults
     (by decide) (by decide) (by decide) (fun _ => by decide)⟩

/-- C10: the batch-level normalize and augment operations rewrite the sample
buffers but copy batch_hash, batch_index and batch_size verbatim from the
input batch, leaving the stored commitment bound to the pre-transformation
sample contents; neither recomputes nor invalidates it. -/
theorem batch_transforms_copy_commitment_fields (nctx : CtNormalizeCtx) (actx : CtAugmentCtx)
    (input out0 : CtBatch) (f : CtFaultFlags) :
    ((ct_normalize_batch nctx input out0 f).1.batch_hash = input.batch_hash ∧
     (ct_normalize_batch nctx input out0 f).1.batch_index = input.batch_index ∧
     (ct_normalize_batch nctx input out0 f).1.batch_size = input.batch_size) ∧
    ((ct_augment_batch actx input out0 f).1.batch_hash = input.batch_hash ∧
     (ct_augment_batch actx input out0 f).1.batch_index = input.batch_index ∧
     (ct_augment_batch actx input out0 f).1.batch_size = input.batch_size) := by
  exact ⟨⟨rfl, rfl, rfl⟩, ⟨rfl, rfl, rfl⟩⟩

end CertData
